import Mathlib

/-!
Verification of the barcode partition classification engine
(`src/bin/lib/python/cellranger/cell_calling_helpers.py`) against its
natural-language specification.

The Python source is shallowly embedded: machine floats that the source only
uses for exact-representable arithmetic are modelled as rationals, numpy's
seeded pseudo-random draws (bootstrap resamples, Poisson simulation) are
passed in as explicit inputs, and fallible operations (Python `/` on a zero
denominator, explicit `raise`) return `Option`/`Except`.
-/

namespace CellCalling

/-- `np.round` / Python `round` of the exact quotient `num / den` for
`den > 0`: round half to even (banker's rounding), computed with integer
arithmetic (`q = ⌊num/den⌋`, remainder compared against `den/2`). Every
rounding in the source is applied to such a quotient. (For `den = 0` this
returns `0`; the sole such call site is `np.mean` of an empty bootstrap
array, which the pipeline never produces.) -/
def round_half_even_div (num den : ℤ) : ℤ :=
  let q := num.fdiv den
  let r := num - den * q
  if 2 * r < den then q
  else if den < 2 * r then q + 1
  else if q % 2 = 0 then q else q + 1

/-- Python's true division `a / b`: raises `ZeroDivisionError` when `b = 0`
(modelled as `none`), otherwise the exact quotient. -/
def pydiv (a b : ℤ) : Option ℚ :=
  if b = 0 then none else some ((a : ℚ) / (b : ℚ))

/-- Modelled from the spec: `BarcodeFilterResults` (cellranger.metrics) is not
under src/. Per §3, a FilterResult carries the realized filtered count and the
bootstrap variance; the confidence-interval and per-result CV fields (normal
quantiles computed in floating point) are not modelled. -/
structure BarcodeFilterResults where
  filtered_bcs : ℕ := 0
  filtered_bcs_var : ℚ := 0
deriving Repr, DecidableEq

/-- Modelled from the spec: `BarcodeFilterResults.init_with_constant_call`
(cellranger.metrics, not under src/) records a constant call with zero
variance. -/
def BarcodeFilterResults.init_with_constant_call (n : ℕ) : BarcodeFilterResults :=
  { filtered_bcs := n, filtered_bcs_var := 0 }

/-! ### The shared top-N index-selection step

`np.argsort(bc_counts, kind="stable")` is the ascending stable argsort: since
indices are distinct, it equals sorting the indices by the lexicographic key
(count, index). The source then reverses it (`[::-1]`), takes the first
`top_n` entries and sorts those indices ascending (`np.sort`). -/

/-- Index comparison realizing the stable ascending argsort of `counts`:
lexicographic on (count at index, index). -/
def bcLe (counts : List ℕ) (i j : ℕ) : Prop :=
  counts.getD i 0 < counts.getD j 0 ∨ (counts.getD i 0 = counts.getD j 0 ∧ i ≤ j)

instance (counts : List ℕ) : DecidableRel (bcLe counts) := fun _ _ => by
  unfold bcLe; infer_instance

instance (counts : List ℕ) : IsTotal ℕ (bcLe counts) :=
  ⟨by intro i j; unfold bcLe; omega⟩

instance (counts : List ℕ) : IsTrans ℕ (bcLe counts) :=
  ⟨by intro i j k; unfold bcLe; omega⟩

instance (counts : List ℕ) : IsAntisymm ℕ (bcLe counts) :=
  ⟨by intro i j; unfold bcLe; omega⟩

/-- `np.argsort(bc_counts, kind="stable")`: indices `0..len-1` sorted by
ascending count, ties in ascending index order. -/
def argsort_stable (counts : List ℕ) : List ℕ :=
  (List.range counts.length).insertionSort (bcLe counts)

/-- `np.sort(np.argsort(bc_counts, kind="stable")[::-1][0:top_n])`: the
barcode-selection step shared by the ordmag, top-n and gradient filters. -/
def select_top_bc_idx (counts : List ℕ) (top_n : ℕ) : List ℕ :=
  ((argsort_stable counts).reverse.take top_n).insertionSort (· ≤ ·)

/-- `filter_cellular_barcodes_fixed_cutoff` (the TOP_N method): take the top
`cutoff` barcodes by count, `cutoff` floored to the number of barcodes with
nonzero count. Returns (selected indices, metrics, log message). -/
def filter_cellular_barcodes_fixed_cutoff (bc_counts : List ℕ) (cutoff : ℕ) :
    List ℕ × BarcodeFilterResults × Option String :=
  let nonzero_bcs := (bc_counts.filter (fun c => decide (0 < c))).length
  let top_n := min cutoff nonzero_bcs
  let top_bc_idx := select_top_bc_idx bc_counts top_n
  (top_bc_idx, BarcodeFilterResults.init_with_constant_call top_n, none)

/-! ### Characterization of the selection step -/

theorem argsort_stable_perm (counts : List ℕ) :
    List.Perm (argsort_stable counts) (List.range counts.length) :=
  List.perm_insertionSort _ _

theorem argsort_stable_sorted (counts : List ℕ) :
    List.Sorted (bcLe counts) (argsort_stable counts) :=
  List.sorted_insertionSort _ _

theorem argsort_stable_nodup (counts : List ℕ) :
    (argsort_stable counts).Nodup :=
  ((argsort_stable_perm counts).nodup_iff).mpr (List.nodup_range _)

theorem select_top_bc_idx_perm (counts : List ℕ) (n : ℕ) :
    List.Perm (select_top_bc_idx counts n) ((argsort_stable counts).reverse.take n) :=
  List.perm_insertionSort _ _

theorem select_top_bc_idx_nodup (counts : List ℕ) (n : ℕ) :
    (select_top_bc_idx counts n).Nodup :=
  ((select_top_bc_idx_perm counts n).nodup_iff).mpr
    ((List.nodup_reverse.mpr (argsort_stable_nodup counts)).sublist (List.take_sublist _ _))

theorem select_top_bc_idx_length (counts : List ℕ) (n : ℕ) :
    (select_top_bc_idx counts n).length = min n counts.length := by
  have h1 : (select_top_bc_idx counts n).length =
      ((argsort_stable counts).reverse.take n).length :=
    (select_top_bc_idx_perm counts n).length_eq
  have h2 : (argsort_stable counts).reverse.length = counts.length := by
    rw [List.length_reverse, (argsort_stable_perm counts).length_eq, List.length_range]
  rw [h1, List.length_take, h2]

theorem select_top_bc_idx_mem_lt (counts : List ℕ) (n : ℕ) :
    ∀ i ∈ select_top_bc_idx counts n, i < counts.length := by
  intro i hi
  have : i ∈ (argsort_stable counts).reverse.take n :=
    (select_top_bc_idx_perm counts n).mem_iff.mp hi
  have : i ∈ argsort_stable counts :=
    List.mem_reverse.mp (List.mem_of_mem_take this)
  have : i ∈ List.range counts.length := (argsort_stable_perm counts).mem_iff.mp this
  exact List.mem_range.mp this

theorem select_top_bc_idx_sorted (counts : List ℕ) (n : ℕ) :
    List.Sorted (· ≤ ·) (select_top_bc_idx counts n) :=
  List.sorted_insertionSort _ _

/-- Dominance: if index `i` is selected and index `j` (in range) is not, then
`j` has a strictly smaller count, or an equal count and a smaller index. Ties
at the cutoff are therefore won by the *larger* original index. -/
theorem select_top_bc_idx_dominance (counts : List ℕ) (n : ℕ) :
    ∀ i ∈ select_top_bc_idx counts n, ∀ j, j < counts.length →
      j ∉ select_top_bc_idx counts n →
      counts.getD j 0 < counts.getD i 0 ∨
        (counts.getD j 0 = counts.getD i 0 ∧ j < i) := by
  intro i hi j hjlen hj
  set R := (argsort_stable counts).reverse with hR
  have hmemiff : ∀ k, k ∈ select_top_bc_idx counts n ↔ k ∈ R.take n := by
    intro k; exact (select_top_bc_idx_perm counts n).mem_iff
  have hiT : i ∈ R.take n := (hmemiff i).mp hi
  have hjT : j ∉ R.take n := fun h => hj ((hmemiff j).mpr h)
  have hjR : j ∈ R := by
    have : j ∈ List.range counts.length := List.mem_range.mpr hjlen
    have : j ∈ argsort_stable counts := (argsort_stable_perm counts).mem_iff.mpr this
    exact List.mem_reverse.mpr this
  have hsplit : R.take n ++ R.drop n = R := List.take_append_drop n R
  have hjD : j ∈ R.drop n := by
    rcases (List.mem_append.mp (hsplit ▸ hjR)) with h | h
    · exact absurd h hjT
    · exact h
  have hRsorted : List.Pairwise (fun a b => bcLe counts b a) R := by
    rw [hR, List.pairwise_reverse]
    exact argsort_stable_sorted counts
  have hpair : ∀ a ∈ R.take n, ∀ b ∈ R.drop n, bcLe counts b a := by
    have := hsplit ▸ hRsorted
    exact (List.pairwise_append.mp this).2.2
  have hle : bcLe counts j i := hpair i hiT j hjD
  have hne : j ≠ i := by
    intro hji
    exact hjT (hji ▸ hiT)
  unfold bcLe at hle
  omega

/-! ### The ORDMAG filter -/

/-- `ORDMAG_RECOVERED_CELLS_QUANTILE = 0.99`. -/
def ORDMAG_RECOVERED_CELLS_QUANTILE : ℚ := 99 / 100

/-- `MIN_RECOVERED_CELLS_PER_GEM_GROUP = 50`. -/
def MIN_RECOVERED_CELLS_PER_GEM_GROUP : ℕ := 50

/-- `np.mean` of a list of naturals, as an exact rational (`0` on the empty
list; the pipeline never averages an empty bootstrap array). -/
def listMean (l : List ℕ) : ℚ :=
  (l.map (fun n => (n : ℚ))).sum / l.length

/-- `np.var` (population variance) of a list of naturals, as an exact
rational. -/
def listVar (l : List ℕ) : ℚ :=
  (l.map (fun n => ((n : ℚ) - listMean l) ^ 2)).sum / l.length

/-- `int(np.round(np.mean(l)))`, realized by `round_half_even_div` on the
exact fraction `sum / length`. -/
def round_mean (l : List ℕ) : ℕ :=
  (round_half_even_div (l.sum : ℤ) (l.length : ℤ)).toNat

/-- `nonzero_counts[np.argsort(nonzero_counts, kind="stable")[::-1]]`: the
counts sorted in descending order. -/
def sort_desc (l : List ℕ) : List ℕ :=
  (l.insertionSort (· ≤ ·)).reverse

/-- `np.searchsorted(a, v)` (default side "left") for ascending `a`: the first
position whose entry is `≥ v`. -/
def searchsorted_left (a : List ℕ) (v : ℕ) : ℕ :=
  (a.takeWhile (fun x => decide (x < v))).length

/-- `find_within_ordmag`: the number of entries above 10% (rounded, floored at
1) of the count at the baseline position from the top; the float product
`0.1 * baseline` is modelled as the exact quotient `baseline / 10`. -/
def find_within_ordmag (x : List ℕ) (baseline_idx : ℕ) : ℕ :=
  let x_ascending := x.insertionSort (· ≤ ·)
  let baseline := x_ascending.getD (x.length - (baseline_idx + 1)) 0
  let cutoff := max 1 (round_half_even_div (baseline : ℤ) 10).toNat
  x.length - searchsorted_left x_ascending cutoff

/-- The `while` loop of `summarize_bootstrapped_top_n`: starting from
`index = nbcs - 1`, step forward while the entry *at the current index*
equals the cutoff count, aborting with `none` ("revert to the initial
estimate") as soon as more than 20% additional barcodes would be swept in.
Because the equality test is applied to the incremented index only on the
next iteration, a normal exit leaves `index` one position past the tie run
(unless it stopped at the end of the array). -/
def tie_walk_fuel (sorted_counts : List ℕ) (cutoff nbcs : ℕ) :
    (fuel : ℕ) → (index : ℕ) → Option ℕ
  | 0, index => some index
  | fuel + 1, index =>
    if index + 1 < sorted_counts.length ∧ sorted_counts.getD index 0 = cutoff then
      -- the source's `(index + 1 - nbcs) > 0.20 * nbcs` for the incremented
      -- index, both sides multiplied by 5 (0.20 modelled as the exact 1/5)
      if (nbcs : ℤ) < 5 * (((index + 1 : ℕ) : ℤ) + 1 - (nbcs : ℤ)) then none
      else tie_walk_fuel sorted_counts cutoff nbcs fuel (index + 1)
    else some index

/-- The tie-walk started at `index = nbcs - 1`. Each loop iteration requires
`index + 1 < length` and increments `index`, so the loop runs at most
`length` times and the fuel `length + 1` is never exhausted: the structural
`tie_walk_fuel` coincides with the source's `while` loop. -/
def tie_walk (sorted_counts : List ℕ) (cutoff nbcs : ℕ) : Option ℕ :=
  tie_walk_fuel sorted_counts cutoff nbcs (sorted_counts.length + 1) (nbcs - 1)

/-- `summarize_bootstrapped_top_n`: mean and variance of the bootstrap counts,
the rounded mean `nbcs`, then the monotonicity adjustment walking the tie run
at the cutoff count `sorted_counts[nbcs - 1]`, reverting to `nbcs` when the
walk aborts. (When `nbcs` exceeds the number of nonzero counts the source
would raise an IndexError; callers guarantee `nbcs ≤ len(nonzero_counts)`.) -/
def summarize_bootstrapped_top_n (top_n_boot : List ℕ) (nonzero_counts : List ℕ) :
    BarcodeFilterResults :=
  let nbcs := round_mean top_n_boot
  let adjusted :=
    if 0 < nbcs then
      let sorted_counts := sort_desc nonzero_counts
      let cutoff := sorted_counts.getD (nbcs - 1) 0
      if 0 < cutoff then
        match tie_walk sorted_counts cutoff nbcs with
        | none => nbcs
        | some index => index + 1
      else nbcs
    else nbcs
  { filtered_bcs := adjusted, filtered_bcs_var := listVar top_n_boot }

/-- The warning logged by the ordmag filter when no barcode has a nonzero
count. -/
def ordmag_empty_msg : String :=
  "WARNING: All barcodes do not have enough reads for ordmag, allowing no bcs through"

/-- `filter_cellular_barcodes_ordmag`. The two seeded pseudo-random
collaborators are explicit inputs: `estimated_recovered` stands for the
Monte-Carlo mean of `estimate_recovered_cells_ordmag` over its 100 bootstrap
resamples (used only when `recovered_cells` is not supplied), and `resamples`
are the 100 seeded resamples `rs.choice(nonzero_bc_counts,
len(nonzero_bc_counts))` feeding `find_within_ordmag`. The float product
`recovered_cells * (1 - 0.99)` is modelled as the exact quotient
`recovered_cells / 100`. -/
def filter_cellular_barcodes_ordmag (bc_counts : List ℕ) (recovered_cells : Option ℕ)
    (estimated_recovered : ℕ) (resamples : List (List ℕ)) :
    List ℕ × BarcodeFilterResults × Option String :=
  let nonzero_bc_counts := bc_counts.filter (fun c => decide (0 < c))
  if nonzero_bc_counts.length = 0 then
    ([], { filtered_bcs := 0, filtered_bcs_var := 0 }, some ordmag_empty_msg)
  else
    let recovered := max (recovered_cells.getD estimated_recovered)
      MIN_RECOVERED_CELLS_PER_GEM_GROUP
    let baseline_bc_idx :=
      min (round_half_even_div (recovered : ℤ) 100).toNat (nonzero_bc_counts.length - 1)
    let top_n_boot := resamples.map (fun r => find_within_ordmag r baseline_bc_idx)
    let metrics := summarize_bootstrapped_top_n top_n_boot nonzero_bc_counts
    (select_top_bc_idx bc_counts metrics.filtered_bcs, metrics, none)

/-! ### The GRADIENT and TARGETED filters -/

/-- Modelled from the spec: `DEFAULT_RECOVERED_CELLS_PER_GEM_GROUP`
(cellranger.constants, not under src/), the default per-gem-group
recovered-cell estimate. Its numeric value does not affect any claim
verified here. -/
def DEFAULT_RECOVERED_CELLS_PER_GEM_GROUP : ℕ := 3000

/-- `N_CANDIDATE_BARCODES_GRADIENT = 20000`. -/
def N_CANDIDATE_BARCODES_GRADIENT : ℕ := 20000

/-- `N_CANDIDATE_BARCODES_GRADIENT_LT = 2000`. -/
def N_CANDIDATE_BARCODES_GRADIENT_LT : ℕ := 2000

/-- `np.argmin`: index of the first minimal entry (`0` on the empty list,
where numpy would raise; never reached on a nonempty barcode list). -/
def idxmin (l : List ℚ) : ℕ :=
  match l.min? with
  | none => 0
  | some m => l.indexOf m

/-- The warning logged by the gradient filter when no barcode has a nonzero
count. -/
def gradient_empty_msg : String :=
  "WARNING: All barcodes do not have enough reads for gradient, allowing no bcs through"

/-- `filter_cellular_barcodes_gradient` with `infer_throughput=False` (the
only form its in-repo callers use). The scipy smoothing-spline fit of the
log-log barcode rank curve (including the knot-reduction heuristic
`get_spline_num_knots`) is an external floating-point collaborator: its first
derivative evaluated at `log_x_values[0:-1]` enters as the explicit input
`spline_gradients`. The float quotient `baseline_count_threshold / 10.0` is
modelled by comparing `10 * count ≥ threshold` exactly, and
`np.round(10 ** log_y_values[argmin])` recovers the unique count value at the
argmin position, which is how it is modelled. -/
def filter_cellular_barcodes_gradient (bc_counts : List ℕ) (recovered_cells : Option ℕ)
    (max_num_additional_cells min_umis_additional_cells : ℕ)
    (spline_gradients : List ℚ) : List ℕ × BarcodeFilterResults × Option String :=
  let recovered :=
    match recovered_cells with
    | none => DEFAULT_RECOVERED_CELLS_PER_GEM_GROUP
    | some r => max r MIN_RECOVERED_CELLS_PER_GEM_GROUP
  let nonzero_bc_counts := sort_desc (bc_counts.filter (fun c => decide (0 < c)))
  if nonzero_bc_counts.length = 0 then
    ([], { filtered_bcs := 0, filtered_bcs_var := 0 }, some gradient_empty_msg)
  else
    let baseline_bc_idx :=
      min (round_half_even_div (recovered : ℤ) 100).toNat (nonzero_bc_counts.length - 1)
    let baseline_count_threshold := nonzero_bc_counts.getD baseline_bc_idx 0
    let lower_bc_idx :=
      (nonzero_bc_counts.countP (fun a => decide (baseline_count_threshold ≤ 10 * a))) - 1
    let lower_bc_idx := min lower_bc_idx (nonzero_bc_counts.length - 1)
    let upper_bc_idx := min (lower_bc_idx + max_num_additional_cells)
      (nonzero_bc_counts.countP (fun a => decide (min_umis_additional_cells ≤ a)))
    let upper_bc_idx := max upper_bc_idx lower_bc_idx
    let upper_bc_idx := min upper_bc_idx (nonzero_bc_counts.length - 1)
    let uniq_counts := sort_desc nonzero_bc_counts.dedup
    let x_values := uniq_counts.map (fun a => nonzero_bc_counts.countP (fun b => decide (a ≤ b)))
    let gradients := (List.range uniq_counts.length).map (fun i =>
      if lower_bc_idx ≤ x_values.getD i 0 ∧ x_values.getD i 0 ≤ upper_bc_idx then
        spline_gradients.getD i 0
      else 0)
    let gradient_count_cutoff := uniq_counts.getD (idxmin gradients) 0
    let gradient_num_cells :=
      max (nonzero_bc_counts.countP (fun a => decide (gradient_count_cutoff < a)))
        (lower_bc_idx + 1)
    let top_n := min gradient_num_cells nonzero_bc_counts.length
    (select_top_bc_idx bc_counts top_n, BarcodeFilterResults.init_with_constant_call top_n, none)

/-- `filter_cellular_barcodes_targeted`: call cells with the gradient method
on the total counts, then retain the called barcodes whose target-gene UMI
count reaches `min_targeted_umis`. The defaults of the threshold parameters
live in cellranger.cell_calling (not under src/), so they are plain
arguments here. -/
def filter_cellular_barcodes_targeted (bc_counts : List ℕ) (recovered_cells : Option ℕ)
    (bc_counts_targeted : List ℕ)
    (max_num_additional_cells min_umis_additional_cells min_targeted_umis : ℕ)
    (spline_gradients : List ℚ) : List ℕ × BarcodeFilterResults × Option String :=
  let grad_cells_idx := (filter_cellular_barcodes_gradient bc_counts recovered_cells
    max_num_additional_cells min_umis_additional_cells spline_gradients).1
  let targ_cells_idx :=
    grad_cells_idx.filter (fun idx => decide (min_targeted_umis ≤ bc_counts_targeted.getD idx 0))
  (targ_cells_idx, BarcodeFilterResults.init_with_constant_call targ_cells_idx.length, none)

/-! ### The MANUAL branch of `_call_cells_by_gem_group` -/

/-- The `FilterMethod.MANUAL` branch of `_call_cells_by_gem_group` (lines
445-461): walk the caller-supplied barcode list in order, keep barcodes
observed in the matrix, and on the first barcode absent from the matrix
raise `InvalidCellBarcode` when multiplexing-tag (CMO) data is present
(`Except.error` carries the offending barcode; the source formats it into
the message "Barcode: ... had no observed reads."), otherwise drop it
silently. The external whitelist check `verify_bcs_match_whitelist`
(cellranger.cell_barcodes, not under src/) concerns the chemistry whitelist,
not matrix membership, and is not modelled. -/
def call_cells_manual (cell_barcodes : List String) (bcs_in_matrix : List String)
    (has_cmo_data : Bool) : Except String (List String) :=
  match cell_barcodes with
  | [] => Except.ok []
  | bc :: rest =>
    if bc ∈ bcs_in_matrix then
      (call_cells_manual rest bcs_in_matrix has_cmo_data).map (fun tl => bc :: tl)
    else if has_cmo_data then Except.error bc
    else call_cells_manual rest bcs_in_matrix has_cmo_data

/-! ### Merging filtered metrics across gem groups -/

/-- The accumulation loop of `merge_filtered_metrics`: sum the filtered
counts and the filtered-count variances over all groups (the per-group
dictionary entries emitted by `to_dict_with_prefix` are external string
formatting and are not modelled). -/
def merge_filtered_metrics_totals (filtered_metrics : List BarcodeFilterResults) : ℕ × ℚ :=
  filtered_metrics.foldl
    (fun acc fm => (acc.1 + fm.filtered_bcs, acc.2 + fm.filtered_bcs_var)) (0, 0)

/-- Modelled from the spec: `robust_divide` (tenkit.stats, not under src/),
per §4.9/§7 a division "guarded against division by zero" that "must produce
zero (not NaN/crash) when a denominator is trivially zero". Stated as a
predicate because the merged CV applies it to a real square root. -/
def robust_divide_spec (num den r : ℝ) : Prop :=
  (den = 0 → r = 0) ∧ (den ≠ 0 → r = num / den)

/-- The combined coefficient of variation computed by
`merge_filtered_metrics`: `robust_divide(sqrt(total variance), total count)`. -/
def merge_filtered_metrics_cv (filtered_metrics : List BarcodeFilterResults) (cv : ℝ) : Prop :=
  robust_divide_spec (Real.sqrt ((merge_filtered_metrics_totals filtered_metrics).2 : ℝ))
    (((merge_filtered_metrics_totals filtered_metrics).1 : ℕ) : ℝ) cv

/-! ### The high-occupancy GEM filter -/

/-- `TOTAL_INSTRUMENT_PARTITIONS = 115000`. -/
def TOTAL_INSTRUMENT_PARTITIONS : ℕ := 115000

/-- `HighOccupancyGemSummary` with its dataclass defaults (all zero). The
histogram field (a dict reported verbatim) is not modelled. -/
structure HighOccupancyGemSummary where
  rtl_multiplexing_estimated_lambda : ℚ := 0
  rtl_multiplexing_total_probe_barcodes : ℕ := 0
  rtl_multiplexing_high_occupancy_probe_barcode_count_threshold : ℕ := 0
  rtl_multiplexing_fraction_cell_gems_high_occupancy : ℚ := 0
  rtl_multiplexing_total_cells_in_high_occupancy_gems : ℕ := 0
  rtl_multiplexing_fraction_cells_in_high_occupancy_gems : ℚ := 0
  rtl_multiplexing_fraction_cell_reads_high_occupancy_gems : ℚ := 0
  rtl_multiplexing_fraction_reads_high_occupancy_gems : ℚ := 0
  rtl_multiplexing_fraction_cell_reads_in_cell_gems : ℚ := 0
deriving Repr, DecidableEq

/-- Lookup in the per-barcode read-count mapping loaded by
`load_per_barcode_metrics` (external, not under src/). The source indexes
the dict directly, presuming the key is present; an absent key is modelled
as zero reads. -/
def bc_reads (bc_to_reads : List (String × ℕ)) (bc : String) : ℕ :=
  (bc_to_reads.lookup bc).getD 0

/-- `remove_bcs_from_high_occupancy_gems` at its default
`total_instrument_partitions`/`recovery_factor` arguments. The threshold
`_get_high_occupancy_gem_threshold` (a seeded Poisson Monte-Carlo
simulation) is an explicit input. The padded empty-partition count
`max(0, int(115000 * (1/1.65) - gems_with_filtered_barcodes))` is computed
exactly as `(⌊(11500000 - 165*g)/165⌋).toNat` (the quotient is never an
integer, so float truncation and exact floor agree). Fractions are computed
with `pydiv`, so the result is `none` exactly when a Python division raises
`ZeroDivisionError`. -/
def remove_bcs_from_high_occupancy_gems (filtered_bcs : List String)
    (genome_filtered_bcs : List (String × List String))
    (bc_to_reads : List (String × ℕ)) (probe_bc_offset : Option ℕ)
    (high_occupancy_gem_threshold : ℕ) :
    Option (List String × List (String × List String) × HighOccupancyGemSummary) :=
  match probe_bc_offset with
  | none => some (filtered_bcs, genome_filtered_bcs, {})
  | some off =>
    if filtered_bcs.length = 0 then some (filtered_bcs, genome_filtered_bcs, {})
    else
      let probe_bcs := filtered_bcs.map (fun bc => bc.drop off)
      let total_probe_barcodes := probe_bcs.dedup.length
      let gem_bcs := filtered_bcs.map (fun bc => bc.take off)
      let gems_with_filtered_barcodes := gem_bcs.dedup.length
      let pad_empty_gems :=
        (Int.fdiv (11500000 - 165 * (gems_with_filtered_barcodes : ℤ)) 165).toNat
      let estimated_lambda : ℚ :=
        ((filtered_bcs.length : ℚ)) / ((gems_with_filtered_barcodes + pad_empty_gems : ℕ) : ℚ)
      let barcodes_in_high_occupancy_gem := filtered_bcs.filter
        (fun bc => decide (high_occupancy_gem_threshold < gem_bcs.count (bc.take off)))
      let total_high_occupancy_gems := gem_bcs.dedup.countP
        (fun g => decide (high_occupancy_gem_threshold < gem_bcs.count g))
      let total_barcodes_in_high_occupancy_gems := barcodes_in_high_occupancy_gem.length
      let total_reads : ℕ := (bc_to_reads.map (fun kv => kv.2)).sum
      let total_cell_reads : ℕ := (filtered_bcs.map (bc_reads bc_to_reads)).sum
      let total_reads_cell_gems : ℕ :=
        ((bc_to_reads.filter (fun kv => decide (kv.1.take off ∈ gem_bcs))).map
          (fun kv => kv.2)).sum
      let total_cell_reads_high_occupancy_gems : ℕ :=
        ((filtered_bcs.filter (fun bc => decide (bc ∈ barcodes_in_high_occupancy_gem))).map
          (bc_reads bc_to_reads)).sum
      (pydiv (total_high_occupancy_gems : ℤ) (gems_with_filtered_barcodes : ℤ)).bind fun f1 =>
      (pydiv (total_barcodes_in_high_occupancy_gems : ℤ) (filtered_bcs.length : ℤ)).bind fun f2 =>
      (pydiv (total_cell_reads_high_occupancy_gems : ℤ) (total_cell_reads : ℤ)).bind fun f3 =>
      (pydiv (total_cell_reads_high_occupancy_gems : ℤ) (total_reads : ℤ)).bind fun f4 =>
      (pydiv (total_cell_reads : ℤ) (total_reads_cell_gems : ℤ)).bind fun f5 =>
      some
        (filtered_bcs.filter (fun bc => decide (bc ∉ barcodes_in_high_occupancy_gem)),
         genome_filtered_bcs.map (fun kv =>
           (kv.1, kv.2.filter (fun bc => decide (bc ∉ barcodes_in_high_occupancy_gem)))),
         { rtl_multiplexing_estimated_lambda := estimated_lambda,
           rtl_multiplexing_total_probe_barcodes := total_probe_barcodes,
           rtl_multiplexing_high_occupancy_probe_barcode_count_threshold :=
             high_occupancy_gem_threshold,
           rtl_multiplexing_fraction_cell_gems_high_occupancy := f1,
           rtl_multiplexing_total_cells_in_high_occupancy_gems :=
             total_barcodes_in_high_occupancy_gems,
           rtl_multiplexing_fraction_cells_in_high_occupancy_gems := f2,
           rtl_multiplexing_fraction_cell_reads_high_occupancy_gems := f3,
           rtl_multiplexing_fraction_reads_high_occupancy_gems := f4,
           rtl_multiplexing_fraction_cell_reads_in_cell_gems := f5 })

/-! ### Antibody/antigen aggregate removal -/

/-- The barcode dimension of a count matrix, as far as aggregate removal
needs it: the ordered list of its barcodes (`matrix.bcs`, assumed distinct).
`bc_to_int` is sequence-to-index lookup and `select_barcodes` keeps the
barcodes at the given indices. -/
structure CountMatrix where
  bcs : List String

def CountMatrix.bcs_dim (m : CountMatrix) : ℕ := m.bcs.length

def CountMatrix.bc_to_int (m : CountMatrix) (bc : String) : ℕ := m.bcs.indexOf bc

def CountMatrix.select_barcodes (m : CountMatrix) (idxs : List ℕ) : CountMatrix :=
  ⟨idxs.filterMap (fun i => m.bcs.get? i)⟩

/-- `remove_antibody_antigen_aggregates` [the source spells the flag
`disable_aggreagtion`]. The per-library detectors
(`detect_highly_corrected_bcs` ∪ `detect_aggregate_barcodes` for antibody,
`detect_outlier_umis_bcs` for antigen) and the per-barcode
fraction-of-total-reads column of the augmented correction table live in
cellranger.feature.antibody.analysis (not under src/) and enter as explicit
inputs `ab_bcs_to_remove`, `ag_bcs_to_remove`, `frac_total_reads`; the
metric-name prefixes of `get_library_type_metric_prefix` are the literal
library-type prefixes. The removed-barcode report is modelled as the
deduplicated list of removed barcodes (its pandas sorting/sanitizing is
external formatting). Returns (matrix, metrics, removed report). -/
def remove_antibody_antigen_aggregates (ab_bcs_to_remove ag_bcs_to_remove : List String)
    (frac_total_reads : String → ℚ) (has_ab has_ag : Bool) (m : CountMatrix)
    (disable_aggreagtion : Bool) : CountMatrix × List (String × ℚ) × List String :=
  let metrics_to_report :=
    (if has_ab then
      [("ANTIBODY_number_aggregate_GEMs", (ab_bcs_to_remove.length : ℚ)),
       ("ANTIBODY_reads_lost_to_aggregate_GEMs", (ab_bcs_to_remove.map frac_total_reads).sum)]
     else []) ++
    (if has_ag then
      [("ANTIGEN_number_aggregate_GEMs", (ag_bcs_to_remove.length : ℚ)),
       ("ANTIGEN_reads_lost_to_aggregate_GEMs", (ag_bcs_to_remove.map frac_total_reads).sum)]
     else [])
  let bcs_to_remove :=
    (if has_ab then ab_bcs_to_remove else []) ++ (if has_ag then ag_bcs_to_remove else [])
  let removed_bcs_report := bcs_to_remove.dedup
  let remove_idx := bcs_to_remove.map (fun bc => m.bc_to_int bc)
  let filtered_bcs := (List.range m.bcs_dim).filter (fun i => decide (i ∉ remove_idx))
  let cleaned_matrix := m.select_barcodes filtered_bcs
  ((if disable_aggreagtion then m else cleaned_matrix), metrics_to_report, removed_bcs_report)

/-! ### `CellCallingParam` accessors -/

/-- `CellCallingParam`: either a per-gem-well scalar or a per-sample mapping
(sample tag to optional value). -/
structure CellCallingParam where
  per_gem_well : Option ℤ := none
  per_sample : Option (List (String × Option ℤ)) := none

/-- The per-sample accumulation loop of `get_recovered_cells`: sum all
values, returning `none` as soon as any entry is missing. -/
def sum_per_sample : List (String × Option ℤ) → Option ℤ
  | [] => some 0
  | (_, none) :: _ => none
  | (_, some v) :: rest => (sum_per_sample rest).map (fun acc => v + acc)

/-- `get_recovered_cells`. -/
def get_recovered_cells (recovered_cells : CellCallingParam) (sample : Option String) :
    Option ℤ :=
  match recovered_cells.per_gem_well with
  | some v => some v
  | none =>
    match recovered_cells.per_sample, sample with
    | some m, none => sum_per_sample m
    | some m, some s => (m.lookup s).getD none
    | none, _ => none

/-- `get_force_cells`. -/
def get_force_cells (force_cells : CellCallingParam) (sample : Option String) :
    Option ℤ :=
  match force_cells.per_gem_well with
  | some v => some v
  | none =>
    match force_cells.per_sample, sample with
    | some m, some s => (m.lookup s).getD none
    | _, _ => none

/-! ### Helper lemmas -/

theorem sum_per_sample_eq_some (m : List (String × Option ℤ))
    (h : ∀ kv ∈ m, kv.2.isSome) :
    sum_per_sample m = some ((m.filterMap (fun kv => kv.2)).sum) := by
  induction m with
  | nil => rfl
  | cons kv rest ih =>
    obtain ⟨k, o⟩ := kv
    cases o with
    | none => exact absurd (h (k, none) (List.mem_cons_self _ _)) (by simp)
    | some v =>
      have := ih (fun kv hkv => h kv (List.mem_cons_of_mem _ hkv))
      simp [sum_per_sample, this]

theorem sum_per_sample_eq_none (m : List (String × Option ℤ))
    (h : ∃ kv ∈ m, kv.2 = none) :
    sum_per_sample m = none := by
  induction m with
  | nil => simp at h
  | cons kv rest ih =>
    obtain ⟨k, o⟩ := kv
    cases o with
    | none => rfl
    | some v =>
      obtain ⟨kv', hkv', hnone⟩ := h
      rcases List.mem_cons.mp hkv' with heq | hmem
      · rw [heq] at hnone; simp at hnone
      · simp [sum_per_sample, ih ⟨kv', hmem, hnone⟩]

/-! ### Claim theorems -/

/-- C10: for a `CellCallingParam` carrying only a per-sample mapping and no
requested sample, `get_recovered_cells` returns the sum of all per-sample
values (and no value if any entry is missing) while `get_force_cells`
returns no value; both accessors return the per-gem-well value whenever that
form is populated. -/
theorem C10_cell_calling_param_accessors :
    (∀ m : List (String × Option ℤ), (∀ kv ∈ m, kv.2.isSome) →
      get_recovered_cells ⟨none, some m⟩ none =
        some ((m.filterMap (fun kv => kv.2)).sum)) ∧
    (∀ m : List (String × Option ℤ), (∃ kv ∈ m, kv.2 = none) →
      get_recovered_cells ⟨none, some m⟩ none = none) ∧
    (∀ m : List (String × Option ℤ), get_force_cells ⟨none, some m⟩ none = none) ∧
    (∀ (v : ℤ) (ps : Option (List (String × Option ℤ))) (s : Option String),
      get_recovered_cells ⟨some v, ps⟩ s = some v ∧ get_force_cells ⟨some v, ps⟩ s = some v) :=
  ⟨fun m h => sum_per_sample_eq_some m h,
   fun m h => sum_per_sample_eq_none m h,
   fun _ => rfl,
   fun _ _ _ => ⟨rfl, rfl⟩⟩

/-- Witness for C10 at concrete inputs. -/
theorem C10_witness :
    get_recovered_cells ⟨none, some [("a", some 2), ("b", some 3)]⟩ none = some 5 ∧
    get_recovered_cells ⟨none, some [("a", some 2), ("b", none)]⟩ none = none ∧
    get_force_cells ⟨none, some [("a", some 2), ("b", some 3)]⟩ none = none ∧
    get_recovered_cells ⟨some 7, some [("a", some 2)]⟩ (some "a") = some 7 ∧
    get_force_cells ⟨some 7, some [("a", some 2)]⟩ (some "a") = some 7 :=
  ⟨(C10_cell_calling_param_accessors.1 [("a", some 2), ("b", some 3)]
      (by decide)).trans (by decide),
   C10_cell_calling_param_accessors.2.1 [("a", some 2), ("b", none)]
     ⟨("b", none), by decide, rfl⟩,
   C10_cell_calling_param_accessors.2.2.1 [("a", some 2), ("b", some 3)],
   (C10_cell_calling_param_accessors.2.2.2 7 (some [("a", some 2)]) (some "a")).1,
   (C10_cell_calling_param_accessors.2.2.2 7 (some [("a", some 2)]) (some "a")).2⟩

/-- C8: the MANUAL filter errors on the first supplied barcode absent from
the matrix when multiplexing-tag (CMO) data is present, identifying that
barcode; without CMO data absent barcodes are silently dropped and the call
is exactly the intersection (in list order) of the supplied barcodes with
those observed in the matrix. -/
theorem C8_manual_filter :
    (∀ cell_barcodes bcs_in_matrix : List String,
      (∃ bc ∈ cell_barcodes, bc ∉ bcs_in_matrix) →
        ∃ bc, bc ∈ cell_barcodes ∧ bc ∉ bcs_in_matrix ∧
          call_cells_manual cell_barcodes bcs_in_matrix true = Except.error bc) ∧
    (∀ cell_barcodes bcs_in_matrix : List String,
      call_cells_manual cell_barcodes bcs_in_matrix false =
        Except.ok (cell_barcodes.filter (fun bc => decide (bc ∈ bcs_in_matrix)))) := by
  constructor
  · intro cell_barcodes bcs_in_matrix h
    induction cell_barcodes with
    | nil => simp at h
    | cons bc rest ih =>
      by_cases hbc : bc ∈ bcs_in_matrix
      · obtain ⟨b, hb, hbnot⟩ := h
        have hbrest : b ∈ rest := by
          rcases List.mem_cons.mp hb with rfl | hmem
          · exact absurd hbc hbnot
          · exact hmem
        obtain ⟨b', hb', hbnot', herr⟩ := ih ⟨b, hbrest, hbnot⟩
        refine ⟨b', List.mem_cons_of_mem _ hb', hbnot', ?_⟩
        simp [call_cells_manual, hbc, herr, Except.map]
      · exact ⟨bc, List.mem_cons_self _ _, hbc, by simp [call_cells_manual, hbc]⟩
  · intro cell_barcodes bcs_in_matrix
    induction cell_barcodes with
    | nil => rfl
    | cons bc rest ih =>
      by_cases hbc : bc ∈ bcs_in_matrix <;>
        simp [call_cells_manual, hbc, ih, Except.map, List.filter_cons]

/-- Witness for C8: the spec scenario, manual list {"AAAA","BBBB"} with
"BBBB" absent from the matrix and CMO data present. -/
theorem C8_witness :
    (∃ bc, bc ∈ ["AAAA", "BBBB"] ∧ bc ∉ ["AAAA"] ∧
      call_cells_manual ["AAAA", "BBBB"] ["AAAA"] true = Except.error bc) ∧
    call_cells_manual ["AAAA", "BBBB"] ["AAAA"] false = Except.ok ["AAAA"] :=
  ⟨C8_manual_filter.1 ["AAAA", "BBBB"] ["AAAA"] ⟨"BBBB", by decide, by decide⟩,
   (C8_manual_filter.2 ["AAAA", "BBBB"] ["AAAA"]).trans (by rfl)⟩

/-- C7: on a count vector with no nonzero entry, the ordmag filter returns an
empty call, zeroed metrics and the descriptive "no barcodes" warning, and
does not fail. -/
theorem C7_ordmag_empty_input (bc_counts : List ℕ) (recovered_cells : Option ℕ)
    (estimated_recovered : ℕ) (resamples : List (List ℕ))
    (h : ∀ c ∈ bc_counts, c = 0) :
    filter_cellular_barcodes_ordmag bc_counts recovered_cells estimated_recovered resamples =
      ([], { filtered_bcs := 0, filtered_bcs_var := 0 }, some ordmag_empty_msg) := by
  have hfilter : bc_counts.filter (fun c => decide (0 < c)) = [] := by
    rw [List.filter_eq_nil_iff]
    intro c hc
    simp [h c hc]
  unfold filter_cellular_barcodes_ordmag
  rw [hfilter]
  rfl

/-- Witness for C7 at the all-zero vector. -/
theorem C7_witness :
    filter_cellular_barcodes_ordmag [0, 0, 0] none 0 [] =
      ([], { filtered_bcs := 0, filtered_bcs_var := 0 }, some ordmag_empty_msg) :=
  C7_ordmag_empty_input [0, 0, 0] none 0 [] (by decide)

/-- C6: for every total-count vector, targeted-count vector and shared
parameters (including the spline-derivative input of the shared gradient
computation), the TARGETED call is a subset of the GRADIENT call on the same
total counts, and the TARGETED call size equals the number of
gradient-called barcodes whose targeted count meets the minimum
targeted-UMI threshold. -/
theorem C6_targeted_subset_of_gradient (bc_counts : List ℕ) (recovered_cells : Option ℕ)
    (bc_counts_targeted : List ℕ)
    (max_num_additional_cells min_umis_additional_cells min_targeted_umis : ℕ)
    (spline_gradients : List ℚ) :
    (filter_cellular_barcodes_targeted bc_counts recovered_cells bc_counts_targeted
        max_num_additional_cells min_umis_additional_cells min_targeted_umis
        spline_gradients).1 ⊆
      (filter_cellular_barcodes_gradient bc_counts recovered_cells
        max_num_additional_cells min_umis_additional_cells spline_gradients).1 ∧
    (filter_cellular_barcodes_targeted bc_counts recovered_cells bc_counts_targeted
        max_num_additional_cells min_umis_additional_cells min_targeted_umis
        spline_gradients).2.1.filtered_bcs =
      ((filter_cellular_barcodes_gradient bc_counts recovered_cells
          max_num_additional_cells min_umis_additional_cells spline_gradients).1.filter
        (fun idx => decide (min_targeted_umis ≤ bc_counts_targeted.getD idx 0))).length :=
  ⟨fun _ hx => (List.mem_filter.mp hx).1, rfl⟩

/-- C2: `merge_filtered_metrics` sums filtered counts and variances over all
groups; the combined CV is `sqrt(total variance) / total count`, zero when
the total count is zero; on groups (100, var 4) and (50, var 1) the totals
are (150, 5) and the CV is `sqrt(5)/150`. -/
theorem C2_merge_filtered_metrics :
    merge_filtered_metrics_totals [⟨100, 4⟩, ⟨50, 1⟩] = (150, 5) ∧
    (∀ cv : ℝ, merge_filtered_metrics_cv [⟨100, 4⟩, ⟨50, 1⟩] cv →
      cv = Real.sqrt 5 / 150) ∧
    (∀ (ms : List BarcodeFilterResults) (cv : ℝ),
      (merge_filtered_metrics_totals ms).1 = 0 → merge_filtered_metrics_cv ms cv →
        cv = 0) := by
  have htot : merge_filtered_metrics_totals [⟨100, 4⟩, ⟨50, 1⟩] = (150, 5) := by
    norm_num [merge_filtered_metrics_totals]
  refine ⟨htot, ?_, ?_⟩
  · intro cv hcv
    rw [merge_filtered_metrics_cv, htot] at hcv
    have := hcv.2 (by norm_num)
    rw [this]
    norm_num
  · intro ms cv h0 hcv
    exact hcv.1 (by rw [h0]; norm_num)

/-- Witness for C2: the CV predicate holds of `sqrt(5)/150` at the scenario
input, and the theorem pins any satisfying CV to that value. -/
theorem C2_witness :
    merge_filtered_metrics_cv [⟨100, 4⟩, ⟨50, 1⟩] (Real.sqrt 5 / 150) ∧
    (Real.sqrt 5 / 150 : ℝ) = Real.sqrt 5 / 150 ∧
    (∀ cv : ℝ, merge_filtered_metrics_cv [] cv → cv = 0) := by
  have hcv : merge_filtered_metrics_cv [⟨100, 4⟩, ⟨50, 1⟩] (Real.sqrt 5 / 150) := by
    constructor
    · intro h
      norm_num [merge_filtered_metrics_totals] at h
    · intro _
      norm_num [merge_filtered_metrics_totals]
  refine ⟨hcv, C2_merge_filtered_metrics.2.1 _ hcv, ?_⟩
  intro cv h
  exact C2_merge_filtered_metrics.2.2 [] cv rfl h

/-- C1: evaluation at a failing input. On counts
`[20,20,20,20,20,5,5,5,5,5,5,1,1]` with supplied `recovered_cells = 100` and
every bootstrap resample equal to `[1,1,1,5,5,5,5,5,5,5,5,20,20]` (so every
`find_within_ordmag` draw and hence the bootstrap mean is 10), the tie-walk
of `summarize_bootstrapped_top_n` completes without reverting, yet grows the
call to 12: the loop re-tests `sorted_counts[index]` only after
incrementing, so it stops one position *past* the tie run at the cutoff 5
and sweeps in one count-1 barcode. The resulting call contains barcode 12
(count 1) but not barcode 11 (count 1), contradicting the ≥-closure that the
source's own comment ("make sure that if a barcode with count x is selected,
we select all barcodes with count >= x") and the claim require. -/
theorem C1_ordmag_monotonicity_failure :
    (filter_cellular_barcodes_ordmag [20, 20, 20, 20, 20, 5, 5, 5, 5, 5, 5, 1, 1]
        (some 100) 0 (List.replicate 100 [1, 1, 1, 5, 5, 5, 5, 5, 5, 5, 5, 20, 20])).1 =
      [0, 1, 2, 3, 4, 5, 6, 7, 8, 9, 10, 12] ∧
    (filter_cellular_barcodes_ordmag [20, 20, 20, 20, 20, 5, 5, 5, 5, 5, 5, 1, 1]
        (some 100) 0 (List.replicate 100 [1, 1, 1, 5, 5, 5, 5, 5, 5, 5, 5, 20, 20])).2.1.filtered_bcs
      = 12 ∧
    12 ∈ (filter_cellular_barcodes_ordmag [20, 20, 20, 20, 20, 5, 5, 5, 5, 5, 5, 1, 1]
        (some 100) 0 (List.replicate 100 [1, 1, 1, 5, 5, 5, 5, 5, 5, 5, 5, 20, 20])).1 ∧
    11 ∉ (filter_cellular_barcodes_ordmag [20, 20, 20, 20, 20, 5, 5, 5, 5, 5, 5, 1, 1]
        (some 100) 0 (List.replicate 100 [1, 1, 1, 5, 5, 5, 5, 5, 5, 5, 5, 20, 20])).1 ∧
    [20, 20, 20, 20, 20, 5, 5, 5, 5, 5, 5, 1, 1].getD 11 0 =
      [20, 20, 20, 20, 20, 5, 5, 5, 5, 5, 5, 1, 1].getD 12 0 := by
  decide

/-- C4 counterexample: on the tied counts `[5, 5]` with `N = 1`, the shared
selection step picks barcode index 1, not index 0 — ties at the cutoff are
broken in favor of the *largest* original index (`np.argsort(kind="stable")`
is ascending and the subsequent `[::-1]` reverses tied indices too), contrary
to the claim that the smallest original indices are selected. -/
theorem C4_counterexample_tie_break :
    select_top_bc_idx [5, 5] 1 = [1] ∧ 0 ∉ select_top_bc_idx [5, 5] 1 := by
  decide

/-- C4 (amended): the selection step returns the `min N len` indices of
highest count, without duplicates and in ascending index order, and whenever
index `i` is selected while index `j` is not, `j` has a strictly smaller
count or an equal count and a *smaller* index — i.e. ties at the cutoff are
won by the larger original index. -/
theorem C4_top_n_selection (counts : List ℕ) (n : ℕ) :
    (select_top_bc_idx counts n).length = min n counts.length ∧
    (select_top_bc_idx counts n).Nodup ∧
    List.Sorted (· ≤ ·) (select_top_bc_idx counts n) ∧
    (∀ i ∈ select_top_bc_idx counts n, i < counts.length) ∧
    (∀ i ∈ select_top_bc_idx counts n, ∀ j, j < counts.length →
      j ∉ select_top_bc_idx counts n →
      counts.getD j 0 < counts.getD i 0 ∨
        (counts.getD j 0 = counts.getD i 0 ∧ j < i)) :=
  ⟨select_top_bc_idx_length counts n, select_top_bc_idx_nodup counts n,
   select_top_bc_idx_sorted counts n, select_top_bc_idx_mem_lt counts n,
   select_top_bc_idx_dominance counts n⟩

/-- Witness for C4 (amended) at counts `[3, 7, 7]`, `N = 2`: index 1 is
selected, index 0 is not, and the dominance disjunction holds there. -/
theorem C4_witness :
    [3, 7, 7].getD 0 0 < [3, 7, 7].getD 1 0 ∨
      ([3, 7, 7].getD 0 0 = [3, 7, 7].getD 1 0 ∧ 0 < 1) :=
  (C4_top_n_selection [3, 7, 7] 2).2.2.2.2 1 (by decide) 0 (by decide) (by decide)

/-- C3 counterexample: with one filtered barcode "AB" (probe offset 1) whose
per-barcode read count is zero, the fraction
`total_cell_reads_high_occupancy_gems / total_cell_reads` of
`remove_bcs_from_high_occupancy_gems` divides by the zero denominator
`total_cell_reads = 0`: the source raises `ZeroDivisionError` (result
`none`) instead of producing zero. -/
theorem C3_counterexample_zero_reads :
    remove_bcs_from_high_occupancy_gems ["AB"] [("genome", ["AB"])] [("AB", 0)]
      (some 1) 5 = none := by
  decide

theorem pydiv_of_ne_zero (a : ℤ) {b : ℤ} (h : b ≠ 0) :
    pydiv a b = some ((a : ℚ) / (b : ℚ)) := by
  simp [pydiv, h]

/-- C3 (amended): the merge-level division (`robust_divide`, modelled from
the spec) produces zero on a zero denominator, and in
`remove_bcs_from_high_occupancy_gems` the two structural fractions (high-occupancy
GEMs over GEMs with filtered barcodes, cells in high-occupancy GEMs over
filtered barcodes) never see a zero denominator once the function passes its
early returns — but the three read-based fractions divide *unguarded*: the
function only succeeds under the stated nonzero-read hypotheses, and (per
the counterexample) raises `ZeroDivisionError` when a read total is zero
instead of producing zero. -/
theorem C3_division_guards :
    (∀ num r : ℝ, robust_divide_spec num 0 r → r = 0) ∧
    (∀ (filtered_bcs : List String) (genome_filtered_bcs : List (String × List String))
        (bc_to_reads : List (String × ℕ)) (off thr : ℕ),
      filtered_bcs ≠ [] →
      (filtered_bcs.map (bc_reads bc_to_reads)).sum ≠ 0 →
      (bc_to_reads.map (fun kv => kv.2)).sum ≠ 0 →
      ((bc_to_reads.filter (fun kv =>
          decide (kv.1.take off ∈ filtered_bcs.map (fun bc => bc.take off)))).map
        (fun kv => kv.2)).sum ≠ 0 →
      (remove_bcs_from_high_occupancy_gems filtered_bcs genome_filtered_bcs bc_to_reads
          (some off) thr).isSome = true) := by
  constructor
  · intro num r h
    exact h.1 rfl
  · intro fb g reads off thr hne hcell htot hgem
    have hlen : fb.length ≠ 0 := fun h => hne (List.length_eq_zero.mp h)
    have hgems : ((fb.map (fun bc => bc.take off)).dedup.length : ℤ) ≠ 0 := by
      have hmapne : fb.map (fun bc => bc.take off) ≠ [] := by
        simpa [List.map_eq_nil_iff] using hne
      have : (fb.map (fun bc => bc.take off)).dedup ≠ [] := by
        simpa [List.dedup_eq_nil] using hmapne
      simpa [List.length_eq_zero] using this
    have hfb : ((fb.length : ℤ)) ≠ 0 := by exact_mod_cast hlen
    have hcell' : (((fb.map (bc_reads reads)).sum : ℕ) : ℤ) ≠ 0 := by exact_mod_cast hcell
    have htot' : (((reads.map (fun kv => kv.2)).sum : ℕ) : ℤ) ≠ 0 := by exact_mod_cast htot
    have hgem' : ((((reads.filter (fun kv =>
        decide (kv.1.take off ∈ fb.map (fun bc => bc.take off)))).map
          (fun kv => kv.2)).sum : ℕ) : ℤ) ≠ 0 := by exact_mod_cast hgem
    simp only [remove_bcs_from_high_occupancy_gems, pydiv]
    rw [if_neg hlen]
    simp only [if_neg hgems, if_neg hfb, if_neg hcell', if_neg htot', if_neg hgem',
      Option.some_bind]
    rfl

/-- Witness for C3 (amended): a one-barcode input with nonzero reads
succeeds, and a guarded zero-denominator division yields zero. -/
theorem C3_witness :
    (0 : ℝ) = 0 ∧
    (remove_bcs_from_high_occupancy_gems ["AB"] [("genome", ["AB"])] [("AB", 3)]
        (some 1) 5).isSome = true :=
  ⟨C3_division_guards.1 0 0 ⟨fun _ => rfl, fun h => absurd rfl h⟩,
   C3_division_guards.2 ["AB"] [("genome", ["AB"])] [("AB", 3)] 1 5
     (by decide) (by decide) (by decide) (by decide)⟩

theorem filterMap_get_range_filter {α : Type} (l : List α) (P : ℕ → Bool) (Q : α → Bool)
    (h : ∀ i (hi : i < l.length), P i = Q (l.get ⟨i, hi⟩)) :
    ((List.range l.length).filter P).filterMap (fun i => l.get? i) = l.filter Q := by
  induction l generalizing P Q with
  | nil => simp
  | cons a t ih =>
    have h0 : P 0 = Q a := h 0 (by simp)
    have ht : ∀ i (hi : i < t.length), (P ∘ Nat.succ) i = Q (t.get ⟨i, hi⟩) := by
      intro i hi
      exact h (i + 1) (by simpa using Nat.succ_lt_succ hi)
    have hih := ih (P ∘ Nat.succ) Q ht
    have hcomp : (fun i => (a :: t).get? i) ∘ Nat.succ = fun i => t.get? i := by
      funext i; rfl
    rw [List.length_cons, List.range_succ_eq_map, List.filter_cons, List.filter_cons, ← h0]
    cases hP : P 0
    · simp only [Bool.false_eq_true, if_false]
      rw [List.filter_map, List.filterMap_map, hcomp, hih]
    · simp only [if_true]
      rw [List.filter_map, List.filterMap_cons, List.filterMap_map, hcomp, hih]
      rfl

theorem mem_map_indexOf_iff (l : List String) (hl : l.Nodup) (B : List String)
    (i : ℕ) (hi : i < l.length) :
    (i ∈ B.map (fun b => l.indexOf b)) ↔ l.get ⟨i, hi⟩ ∈ B := by
  constructor
  · intro h
    obtain ⟨b, hb, hbi⟩ := List.mem_map.mp h
    have hblt : l.indexOf b < l.length := hbi ▸ hi
    have hget : l.get ⟨l.indexOf b, hblt⟩ = b := List.indexOf_get hblt
    have : l.get ⟨i, hi⟩ = b := by
      subst hbi
      exact hget
    rw [this]
    exact hb
  · intro h
    refine List.mem_map.mpr ⟨l.get ⟨i, hi⟩, h, ?_⟩
    exact List.get_indexOf hl ⟨i, hi⟩

/-- C9: with the disable flag set, `remove_antibody_antigen_aggregates`
still computes the aggregate metrics and the removed-barcode report (they
are identical to the enabled run's) but returns the input matrix unchanged;
with the flag unset it returns the matrix with exactly the union of the
detected antibody and antigen aggregate barcodes removed. -/
theorem C9_aggregate_removal_frame (ab_bcs_to_remove ag_bcs_to_remove : List String)
    (frac_total_reads : String → ℚ) (m : CountMatrix) :
    (remove_antibody_antigen_aggregates ab_bcs_to_remove ag_bcs_to_remove
        frac_total_reads true true m true).1 = m ∧
    (remove_antibody_antigen_aggregates ab_bcs_to_remove ag_bcs_to_remove
        frac_total_reads true true m true).2 =
      (remove_antibody_antigen_aggregates ab_bcs_to_remove ag_bcs_to_remove
        frac_total_reads true true m false).2 ∧
    (m.bcs.Nodup →
      (remove_antibody_antigen_aggregates ab_bcs_to_remove ag_bcs_to_remove
          frac_total_reads true true m false).1.bcs =
        m.bcs.filter (fun bc => decide (bc ∉ ab_bcs_to_remove ++ ag_bcs_to_remove))) := by
  refine ⟨rfl, rfl, ?_⟩
  intro hnodup
  show ((List.range m.bcs.length).filter
      (fun i => decide (i ∉ (ab_bcs_to_remove ++ ag_bcs_to_remove).map
        (fun bc => m.bc_to_int bc)))).filterMap
      (fun i => m.bcs.get? i) = _
  rw [filterMap_get_range_filter m.bcs _ _ ?_]
  intro i hi
  rw [decide_eq_decide]
  exact not_congr (mem_map_indexOf_iff m.bcs hnodup (ab_bcs_to_remove ++ ag_bcs_to_remove) i hi)

/-- Witness for C9 at a concrete three-barcode matrix. -/
theorem C9_witness :
    (remove_antibody_antigen_aggregates ["BBB"] ["ZZZ"] (fun _ => 0) true true
        ⟨["AAA", "BBB", "CCC"]⟩ false).1.bcs =
      ["AAA", "BBB", "CCC"].filter (fun bc => decide (bc ∉ ["BBB"] ++ ["ZZZ"])) :=
  (C9_aggregate_removal_frame ["BBB"] ["ZZZ"] (fun _ => 0) ⟨["AAA", "BBB", "CCC"]⟩).2.2
    (by decide)

theorem countP_range_getD (l : List ℕ) (p : ℕ → Bool) :
    (List.range l.length).countP (fun i => p (l.getD i 0)) = l.countP p := by
  induction l with
  | nil => simp
  | cons a t ih =>
    rw [List.length_cons, List.range_succ_eq_map, List.countP_cons, List.countP_cons,
      List.countP_map]
    have hcomp : ((fun i => p ((a :: t).getD i 0)) ∘ Nat.succ) = fun i => p (t.getD i 0) := by
      funext i; rfl
    rw [hcomp, ih]
    rfl

/-- Selecting as many barcodes as there are nonzero counts yields exactly the
ascending list of all nonzero-count indices. -/
theorem select_top_all_nonzero (bc_counts : List ℕ) :
    select_top_bc_idx bc_counts ((bc_counts.filter (fun c => decide (0 < c))).length) =
      (List.range bc_counts.length).filter (fun i => decide (0 < bc_counts.getD i 0)) := by
  set m := (bc_counts.filter (fun c => decide (0 < c))).length with hm
  set S := select_top_bc_idx bc_counts m with hS
  set NZ := (List.range bc_counts.length).filter
    (fun i => decide (0 < bc_counts.getD i 0)) with hNZ
  have hmle : m ≤ bc_counts.length := by
    rw [hm]; exact List.length_filter_le _ _
  have hSlen : S.length = m := by
    rw [hS, select_top_bc_idx_length]
    omega
  have hNZlen : NZ.length = m := by
    rw [hNZ, ← List.countP_eq_length_filter,
      countP_range_getD bc_counts (fun c => decide (0 < c)), hm,
      List.countP_eq_length_filter]
  have hSnd : S.Nodup := select_top_bc_idx_nodup bc_counts m
  have hNZnd : NZ.Nodup := (List.nodup_range _).filter _
  have hsub : ∀ j ∈ NZ, j ∈ S := by
    intro j hj
    by_contra hjS
    have hjrange := (List.mem_filter.mp hj).1
    have hjlen : j < bc_counts.length := List.mem_range.mp hjrange
    have hjpos : 0 < bc_counts.getD j 0 := by
      simpa using (List.mem_filter.mp hj).2
    by_cases hSNZ : ∀ i ∈ S, i ∈ NZ
    · have hsubf : S.toFinset ⊆ NZ.toFinset := by
        intro x hx
        exact List.mem_toFinset.mpr (hSNZ x (List.mem_toFinset.mp hx))
      have hcards : NZ.toFinset.card ≤ S.toFinset.card := by
        rw [List.toFinset_card_of_nodup hSnd, List.toFinset_card_of_nodup hNZnd,
          hSlen, hNZlen]
      have hfeq := Finset.eq_of_subset_of_card_le hsubf hcards
      exact hjS (List.mem_toFinset.mp (hfeq ▸ List.mem_toFinset.mpr hj))
    · push_neg at hSNZ
      obtain ⟨i, hiS, hiNZ⟩ := hSNZ
      have hilen : i < bc_counts.length := select_top_bc_idx_mem_lt bc_counts m i hiS
      have hizero : bc_counts.getD i 0 = 0 := by
        by_contra hpos
        exact hiNZ (List.mem_filter.mpr ⟨List.mem_range.mpr hilen,
          by simpa using Nat.pos_of_ne_zero hpos⟩)
      have hdom := select_top_bc_idx_dominance bc_counts m i hiS j hjlen hjS
      omega
  have hsubf : NZ.toFinset ⊆ S.toFinset := fun x hx =>
    List.mem_toFinset.mpr (hsub x (List.mem_toFinset.mp hx))
  have hcards : S.toFinset.card ≤ NZ.toFinset.card := by
    rw [List.toFinset_card_of_nodup hSnd, List.toFinset_card_of_nodup hNZnd, hSlen, hNZlen]
  have hfeq : NZ.toFinset = S.toFinset := Finset.eq_of_subset_of_card_le hsubf hcards
  have hperm : S.Perm NZ := by
    rw [List.perm_ext_iff_of_nodup hSnd hNZnd]
    intro a
    constructor
    · intro ha
      have : a ∈ S.toFinset := List.mem_toFinset.mpr ha
      rw [← hfeq] at this
      exact List.mem_toFinset.mp this
    · intro ha
      exact hsub a ha
  exact List.eq_of_perm_of_sorted hperm (select_top_bc_idx_sorted bc_counts m)
    (((List.pairwise_lt_range _).imp le_of_lt).filter _)

/-- C5: requesting more cells than there are nonzero-count barcodes makes
the TOP_N filter return exactly the ascending list of all nonzero-count
barcode indices (no error), with reported filtered count equal to the number
of nonzero barcodes. -/
theorem C5_topn_exceeding_nonzero (bc_counts : List ℕ) (cutoff : ℕ)
    (h : (bc_counts.filter (fun c => decide (0 < c))).length < cutoff) :
    (filter_cellular_barcodes_fixed_cutoff bc_counts cutoff).1 =
      (List.range bc_counts.length).filter (fun i => decide (0 < bc_counts.getD i 0)) ∧
    (filter_cellular_barcodes_fixed_cutoff bc_counts cutoff).2.1.filtered_bcs =
      (bc_counts.filter (fun c => decide (0 < c))).length := by
  have hmin : min cutoff ((bc_counts.filter (fun c => decide (0 < c))).length) =
      (bc_counts.filter (fun c => decide (0 < c))).length :=
    Nat.min_eq_right (Nat.le_of_lt h)
  constructor
  · show select_top_bc_idx bc_counts
      (min cutoff ((bc_counts.filter (fun c => decide (0 < c))).length)) = _
    rw [hmin]
    exact select_top_all_nonzero bc_counts
  · show min cutoff ((bc_counts.filter (fun c => decide (0 < c))).length) = _
    exact hmin

/-- Witness for C5 at counts `[0, 5, 0, 7]` with requested `cutoff = 10 > 2`
nonzero barcodes. -/
theorem C5_witness :
    (filter_cellular_barcodes_fixed_cutoff [0, 5, 0, 7] 10).1 =
      (List.range 4).filter (fun i => decide (0 < [0, 5, 0, 7].getD i 0)) ∧
    (filter_cellular_barcodes_fixed_cutoff [0, 5, 0, 7] 10).2.1.filtered_bcs =
      ([0, 5, 0, 7].filter (fun c => decide (0 < c))).length :=
  C5_topn_exceeding_nonzero [0, 5, 0, 7] 10 (by decide)

end CellCalling
